import Mathlib

/-!
Verification of the SideEffectNet dashboard core (src/src/dashboard.py).

The analytical core of the dashboard is embedded shallowly:
tables become lists of records, Python dicts become association lists with
insert-or-overwrite semantics, the networkx graph becomes a pair of such
association lists (node attributes and edge attributes), and the fallible
`float(...)` parse becomes an `Option`-valued parser feeding an explicit
`Frequency` sum type.  All definitions are computable so that concrete
dashboards can be evaluated inside proofs.
-/

namespace SideEffectNet

/-- Lookup in an association list: the value of the first binding of key `k`.
Models Python dict access (`m[k]` returning `some`, absence returning `none`,
so `m.get(k, d)` is `(aget? k m).getD d`). -/
def aget? {α β : Type} [DecidableEq α] (k : α) (l : List (α × β)) : Option β :=
  (l.find? (fun p => decide (p.1 = k))).map Prod.snd

/-- Insert-or-overwrite in an association list: models Python dict assignment
`m[k] = v`, which is also what networkx `add_node` / `add_edge` do to their
attribute dictionaries when the node/edge already exists (the attributes are
updated in place; insertion order of distinct keys is preserved). -/
def upsert {α β : Type} [DecidableEq α] (k : α) (v : β) : List (α × β) → List (α × β)
  | [] => [(k, v)]
  | p :: t => if p.1 = k then (k, v) :: t else p :: upsert k v t

/-- Whitespace characters removed by Python `str.strip()` with no argument. -/
def pyIsSpace (c : Char) : Bool :=
  c = ' ' || c = '\t' || c = '\n' || c = '\r' || c = '\x0b' || c = '\x0c'

/-- Models Python `str.strip()` (dashboard.py lines 59-60): drop leading and
trailing whitespace. -/
def strip (s : String) : String :=
  ⟨((s.data.dropWhile pyIsSpace).reverse.dropWhile pyIsSpace).reverse⟩

/-- Frequency payload of a graph edge: either a parsed number or the explicit
unknown sentinel (the string `"N/A"` in dashboard.py line 65). -/
inductive Frequency : Type
  | known : ℚ → Frequency
  | na : Frequency
deriving DecidableEq

/-- Raw content of a `freq_pct` cell before parsing: a number, a text cell, or
a missing value (Python `None`, for which `float(None)` raises `TypeError`). -/
inductive RawFreq : Type
  | num : ℚ → RawFreq
  | text : String → RawFreq
  | missing : RawFreq
deriving DecidableEq

/-- Value of a list of decimal digit characters. -/
def digitsVal (l : List Char) : ℕ :=
  l.foldl (fun a c => 10 * a + (c.toNat - 48)) 0

/-- Models Python `float(s)` on a string: optional surrounding whitespace and
sign, then a decimal numeral with optional fractional part (at least one digit
overall).  Exponent/inf/nan forms accepted by Python are not needed by any
claim and are omitted; every string rejected here models a `ValueError`. -/
def floatParse? (s : String) : Option ℚ :=
  let cs := (strip s).data
  let body := match cs with
    | '-' :: r => r
    | '+' :: r => r
    | r => r
  let sgn : ℚ := match cs with
    | '-' :: _ => -1
    | _ => 1
  let intPart := body.takeWhile Char.isDigit
  let rest := body.dropWhile Char.isDigit
  match rest with
  | [] => if intPart.isEmpty then none else some (sgn * digitsVal intPart)
  | '.' :: fracs =>
      if fracs.all Char.isDigit && (!intPart.isEmpty || !fracs.isEmpty) then
        some (sgn * ((digitsVal intPart : ℚ) + (digitsVal fracs : ℚ) / (10 ^ fracs.length : ℚ)))
      else none
  | _ => none

/-- Models Python `float(raw)` on a raw cell: numbers pass through, text cells
are parsed, `None` raises `TypeError` (modeled as `none`). -/
def parses? : RawFreq → Option ℚ
  | RawFreq.num q => some q
  | RawFreq.text s => floatParse? s
  | RawFreq.missing => none

/-- The `try: freq = float(freq_raw) except (ValueError, TypeError): freq = "N/A"`
block of dashboard.py lines 62-65. -/
def tryFloat (raw : RawFreq) : Frequency :=
  match parses? raw with
  | some q => Frequency.known q
  | none => Frequency.na

/-- One row of the edge table (columns `drug_name`, `side_effect`, `freq_pct`). -/
structure EdgeRecord : Type where
  drug_name : String
  side_effect : String
  freq_pct : RawFreq
deriving DecidableEq

/-- One row of the risk table (columns `drug_name`, `risk_score`). -/
structure RiskRecord : Type where
  drug_name : String
  risk_score : ℚ
deriving DecidableEq

/-- Attributes stored on a graph node by `G.add_node` (dashboard.py 66-67). -/
structure NodeAttrs : Type where
  type : String
  color : String
  size : ℕ
deriving DecidableEq

/-- The networkx `DiGraph` built by `build_graph`: node-attribute dictionary
and edge-attribute dictionary, both with dict overwrite semantics.  The edge
`title` string is a rendering of the frequency and is omitted as presentation. -/
structure Graph : Type where
  nodes : List (String × NodeAttrs)
  edges : List ((String × String) × Frequency)
deriving DecidableEq

/-- The empty graph `nx.DiGraph()`. -/
def Graph.empty : Graph := ⟨[], []⟩

/-- Attributes written for a drug node (dashboard.py line 66). -/
def drugAttrs : NodeAttrs := ⟨"drug", "#636EFA", 20⟩

/-- Attributes written for a side-effect node (dashboard.py line 67). -/
def seAttrs : NodeAttrs := ⟨"side_effect", "#EF553B", 15⟩

/-- One iteration of the `build_graph` row loop (dashboard.py lines 58-68):
strip both names, parse the frequency, add/overwrite the drug node, then the
side-effect node, then the edge. -/
def addRecord (G : Graph) (r : EdgeRecord) : Graph :=
  { nodes := upsert (strip r.side_effect) seAttrs (upsert (strip r.drug_name) drugAttrs G.nodes),
    edges := upsert (strip r.drug_name, strip r.side_effect) (tryFloat r.freq_pct) G.edges }

/-- dashboard.py lines 55-69: `build_graph(edges_df)`. -/
def build_graph (edges_df : List EdgeRecord) : Graph :=
  edges_df.foldl addRecord Graph.empty

/-- dashboard.py line 84: `G = build_graph(edges_df.head(500))`. -/
def dashboardGraph (edges_df : List EdgeRecord) : Graph :=
  build_graph (edges_df.take 500)

/-- dashboard.py lines 46-53: `load_data()`.  File existence is a parameter of
the embedding; the record types carry the column names `drug_name`,
`side_effect`, `freq_pct` and `drug_name`, `risk_score` of the two schemas. -/
def load_data (edgeExists riskExists : Bool)
    (edgeFile : List EdgeRecord) (riskFile : List RiskRecord) :
    List EdgeRecord × List RiskRecord :=
  if !edgeExists || !riskExists then ([], []) else (edgeFile, riskFile)

/-- dashboard.py lines 86-88: `risk_map = risk_df.set_index("drug_name")["risk_score"].to_dict()`
guarded by `if not risk_df.empty` (the guard is redundant: an empty table
yields the empty dict).  Duplicate drug names: last value wins. -/
def risk_map (risk_df : List RiskRecord) : List (String × ℚ) :=
  risk_df.foldl (fun m r => upsert r.drug_name r.risk_score m) []

/-- First-occurrence de-duplication with an accumulator of already seen keys;
models Python `dict.fromkeys` ordering semantics. -/
def dedupFirstAux {α : Type} [DecidableEq α] (seen : List α) : List α → List α
  | [] => []
  | a :: l => if a ∈ seen then dedupFirstAux seen l else a :: dedupFirstAux (a :: seen) l

/-- Models `list(dict.fromkeys(l))` (dashboard.py line 576): de-duplicate
preserving first-seen order. -/
def dedupFirst {α : Type} [DecidableEq α] (l : List α) : List α :=
  dedupFirstAux [] l

/-- dashboard.py line 89:
`side_effect_lookup = {drug: list(group["side_effect"]) for drug, group in edges_df.groupby("drug_name")}`,
read functionally: the side-effect column of the rows of drug `d`, in table
order (pandas groupby preserves the within-group row order).  A drug with no
rows gets the empty list, matching `side_effect_lookup.get(d, [])`. -/
def side_effect_lookup (edges_df : List EdgeRecord) (d : String) : List String :=
  (edges_df.filter (fun r => decide (r.drug_name = d))).map (fun r => r.side_effect)

/-- The key set of `side_effect_lookup` (the pandas groupby keys): the distinct
drug names of the edge table.  Pandas sorts the group keys; the key order is
irrelevant to every claim below, so first-occurrence order is used. -/
def lookupDrugs (edges_df : List EdgeRecord) : List String :=
  dedupFirst (edges_df.map (fun r => r.drug_name))

/-- Tab 1 drug profile (dashboard.py lines 562-586): a drug absent from the
risk map is a not-found error; otherwise the risk score together with
`list(dict.fromkeys(side_effect_lookup.get(drug, [])))`. -/
def drug_profile (rm : List (String × ℚ)) (edges_df : List EdgeRecord) (drug : String) :
    Option (ℚ × List String) :=
  match aget? drug rm with
  | none => none
  | some score => some (score, dedupFirst (side_effect_lookup edges_df drug))

/-- One row of the tab 2 suggestions table (dashboard.py lines 673-678):
columns `Drug`, `Shared Effects`, `Risk Score`, `Risk Reduction`. -/
structure Suggestion : Type where
  drug : String
  shared_effects : ℕ
  risk_score : ℚ
  risk_reduction : ℚ
deriving DecidableEq

/-- `len(target_set & set(se_list))` of dashboard.py line 668. -/
def overlapCount (edges_df : List EdgeRecord) (a b : String) : ℕ :=
  ((side_effect_lookup edges_df a).toFinset ∩ (side_effect_lookup edges_df b).toFinset).card

/-- The sort key of dashboard.py line 680:
`sort_values(["Shared Effects", "Risk Reduction"], ascending=[False, False])`. -/
def suggLE (a b : Suggestion) : Bool :=
  decide (b.shared_effects < a.shared_effects) ||
    (decide (a.shared_effects = b.shared_effects) && decide (b.risk_reduction ≤ a.risk_reduction))

/-- Tab 2 safer-alternatives search (dashboard.py lines 660-681).  `risk_query`
is `risk_map[drug]`.  For an `other` drug absent from the risk map the source
computes `float("inf") < risk_query`, which is false for every (finite) score;
the `none` branch models that. -/
def safer_alternatives (edges_df : List EdgeRecord) (rm : List (String × ℚ))
    (drug : String) (risk_query : ℚ) : List Suggestion :=
  ((lookupDrugs edges_df).filterMap (fun other =>
    if other = drug then none
    else if overlapCount edges_df drug other = 0 then none
    else match aget? other rm with
      | none => none
      | some ro =>
          if ro < risk_query then
            some ⟨other, overlapCount edges_df drug other, ro, risk_query - ro⟩
          else none)).mergeSort suggLE

/-- Tab 3 range filter (dashboard.py line 695): rows with
`risk_filter[0] <= risk_score <= risk_filter[1]`, both bounds inclusive. -/
def filteredRows (risk_df : List RiskRecord) (lo hi : ℚ) : List RiskRecord :=
  risk_df.filter (fun r => decide (lo ≤ r.risk_score) && decide (r.risk_score ≤ hi))

/-- Tab 3 average risk (dashboard.py lines 705-706): the mean is only computed
under `if not filtered.empty`; the empty case is the explicit undefined state. -/
def meanRisk? (rows : List RiskRecord) : Option ℚ :=
  if rows.isEmpty then none
  else some ((rows.map (fun r => r.risk_score)).sum / (rows.length : ℚ))

/-- Tab 3 `filtered.nlargest(5, "risk_score")` (dashboard.py line 715):
the first five rows of a stable descending sort by risk score. -/
def top5 (rows : List RiskRecord) : List RiskRecord :=
  (rows.mergeSort (fun a b => decide (b.risk_score ≤ a.risk_score))).take 5

/-- `set(side_effect_lookup.get(d, []))` (dashboard.py line 755). -/
def seSet (edges_df : List EdgeRecord) (d : String) : Finset String :=
  (side_effect_lookup edges_df d).toFinset

/-- `risk_map.get(d, 0)` (dashboard.py lines 758 and 760). -/
def riskW (rm : List (String × ℚ)) (d : String) : ℚ :=
  (aget? d rm).getD 0

/-- Python `max` over a list of scores; the dashboard only calls it on a
nonempty selection (at least two drugs), the empty case is an arbitrary value
standing in for the `ValueError` Python would raise. -/
def listMax : List ℚ → ℚ
  | [] => 0
  | [a] => a
  | a :: b :: l => max a (listMax (b :: l))

/-- Aggregates computed by tab 4 (dashboard.py lines 747-794). -/
structure PolyResult : Type where
  combined_effects : Finset String
  overlap_effects : Option (Finset String)
  combined_score : ℚ
  avg_score : ℚ
  max_score : ℚ
  risk_level : String

/-- One iteration of the tab 4 accumulation loop (dashboard.py lines 754-758)
over the state (combined_effects, overlap_effects, combined_score). -/
def polyStep (edges_df : List EdgeRecord) (rm : List (String × ℚ))
    (acc : Finset String × Option (Finset String) × ℚ) (d : String) :
    Finset String × Option (Finset String) × ℚ :=
  (acc.1 ∪ seSet edges_df d,
   some (match acc.2.1 with
     | none => seSet edges_df d
     | some o => o ∩ seSet edges_df d),
   acc.2.2 + riskW rm d)

/-- Tab 4 polypharmacy analysis (dashboard.py lines 747-794): union and
intersection of the side-effect sets, sum / average / max of the risk scores
(absent drugs contributing 0), and the combined risk level
`"High" if avg_score > 0.7 else "Medium" if avg_score > 0.4 else "Low"`. -/
def polypharmacy (edges_df : List EdgeRecord) (rm : List (String × ℚ))
    (selected : List String) : PolyResult :=
  let r := selected.foldl (polyStep edges_df rm) (∅, none, 0)
  let avg := r.2.2 / (selected.length : ℚ)
  { combined_effects := r.1
    overlap_effects := r.2.1
    combined_score := r.2.2
    avg_score := avg
    max_score := listMax (selected.map (riskW rm))
    risk_level := if avg > 7/10 then "High" else if avg > 2/5 then "Medium" else "Low" }

/-- The pivot count of dashboard.py line 75: `k = min(100, max(1, len(_G.nodes())))`. -/
def centralityK (n : ℕ) : ℕ :=
  min 100 (max 1 n)

/-- dashboard.py lines 71-78: `compute_centrality`.  Betweenness centrality
itself is networkx library code and is modeled abstractly by the two function
parameters: `sampled G k = none` models the sampled call raising an exception,
`some res` a successful result; `exact` is the exact fallback computation. -/
def compute_centrality (sampled : Graph → ℕ → Option (List (String × ℚ)))
    (exact : Graph → List (String × ℚ)) (G : Graph) : List (String × ℚ) :=
  match sampled G (centralityK G.nodes.length) with
  | some res => res
  | none => exact G

/-- The `type` attribute stored on node `n` of the built graph. -/
def nodeType? (G : Graph) (n : String) : Option String :=
  (aget? n G.nodes).map (fun a => a.type)

/-- The sequence of (name, kind) node-attribute writes performed by the
`build_graph` loop, in execution order: each record writes its drug node and
then its side-effect node. -/
def kindWrites (rs : List EdgeRecord) : List (String × String) :=
  rs.bind (fun r => [(strip r.drug_name, "drug"), (strip r.side_effect, "side_effect")])

/-- The value of the last write to key `n` in a write sequence. -/
def lastWrite? (ws : List (String × String)) (n : String) : Option String :=
  aget? n ws.reverse

/-- The frequency carried by the last edge record for the (stripped) pair
`(d, s)`, in input order. -/
def lastFreq? (rs : List EdgeRecord) (d s : String) : Option Frequency :=
  (rs.reverse.find? (fun r => decide (strip r.drug_name = d ∧ strip r.side_effect = s))).map
    (fun r => tryFloat r.freq_pct)

/-- Concrete edge table of the safer-alternatives test vector
(side effects A:{x,y}, B:{x}, C:{y,z}). -/
def exEdges : List EdgeRecord :=
  [⟨"A", "x", RawFreq.num 1⟩, ⟨"A", "y", RawFreq.num 2⟩, ⟨"B", "x", RawFreq.num 3⟩,
   ⟨"C", "y", RawFreq.num 4⟩, ⟨"C", "z", RawFreq.num 5⟩]

/-- Concrete risk table of the safer-alternatives test vector
(A: 0.8, B: 0.5, C: 0.9). -/
def exRisk : List RiskRecord :=
  [⟨"A", 4/5⟩, ⟨"B", 1/2⟩, ⟨"C", 9/10⟩]

/-- Concrete edge table of the polypharmacy test vector (A:{p,q}, B:{q,r}). -/
def exEdges2 : List EdgeRecord :=
  [⟨"A", "p", RawFreq.num 1⟩, ⟨"A", "q", RawFreq.num 2⟩, ⟨"B", "q", RawFreq.num 3⟩,
   ⟨"B", "r", RawFreq.num 4⟩]

/-- Concrete risk table of the polypharmacy test vector (A: 0.6, B: 0.8). -/
def exRisk2 : List RiskRecord :=
  [⟨"A", 3/5⟩, ⟨"B", 4/5⟩]

/-- Duplicate-pair edge records [(A,B,10), (A,B,20)] of the overwrite claim. -/
def exEdges3 : List EdgeRecord :=
  [⟨"A", "B", RawFreq.num 10⟩, ⟨"A", "B", RawFreq.num 20⟩]

/-- Edge records in which the name B occurs both as a side effect and as a
drug. -/
def exEdges10 : List EdgeRecord :=
  [⟨"A", "B", RawFreq.num 1⟩, ⟨"B", "C", RawFreq.num 2⟩]

/-- Risk table with integer scores (inside the nominal [0,1] range) used to
exercise the empty-range filter. -/
def exRisk7 : List RiskRecord :=
  [⟨"A", 0⟩, ⟨"B", 1⟩]

theorem aget?_nil {α β : Type} [DecidableEq α] (k : α) : aget? k ([] : List (α × β)) = none := rfl

theorem aget?_cons {α β : Type} [DecidableEq α] (k : α) (p : α × β) (t : List (α × β)) :
    aget? k (p :: t) = if p.1 = k then some p.2 else aget? k t := by
  by_cases h : p.1 = k <;> simp [aget?, List.find?_cons, h]

theorem aget?_upsert_self {α β : Type} [DecidableEq α] (k : α) (v : β) (l : List (α × β)) :
    aget? k (upsert k v l) = some v := by
  induction l with
  | nil => simp [upsert, aget?_cons, aget?_nil]
  | cons p t ih =>
      by_cases h : p.1 = k <;> simp [upsert, h, aget?_cons, ih]

theorem aget?_upsert_ne {α β : Type} [DecidableEq α] {k k' : α} (v : β) (l : List (α × β))
    (h : k' ≠ k) : aget? k' (upsert k v l) = aget? k' l := by
  induction l with
  | nil => simp [upsert, aget?_cons, aget?_nil, Ne.symm h]
  | cons p t ih =>
      by_cases hp : p.1 = k
      · subst hp
        simp [upsert, aget?_cons, Ne.symm h]
      · simp [upsert, hp, aget?_cons, ih]

theorem mem_dedupFirstAux {α : Type} [DecidableEq α] (l : List α) :
    ∀ (seen : List α) (x : α), x ∈ dedupFirstAux seen l ↔ x ∈ l ∧ x ∉ seen := by
  induction l with
  | nil => intro seen x; simp [dedupFirstAux]
  | cons a t ih =>
      intro seen x
      by_cases ha : a ∈ seen
      · simp only [dedupFirstAux, if_pos ha, ih, List.mem_cons]
        constructor
        · rintro ⟨hx, hns⟩; exact ⟨Or.inr hx, hns⟩
        · rintro ⟨hx | hx, hns⟩
          · exact absurd (by rw [hx]; exact ha) hns
          · exact ⟨hx, hns⟩
      · simp only [dedupFirstAux, if_neg ha, List.mem_cons, ih]
        constructor
        · rintro (rfl | ⟨hx, hns⟩)
          · exact ⟨Or.inl rfl, ha⟩
          · exact ⟨Or.inr hx, fun hs => hns (Or.inr hs)⟩
        · rintro ⟨hxa | hx, hns⟩
          · exact Or.inl hxa
          · by_cases hxa : x = a
            · exact Or.inl hxa
            · exact Or.inr ⟨hx, fun hs => hs.elim hxa hns⟩

theorem nodup_dedupFirstAux {α : Type} [DecidableEq α] (l : List α) :
    ∀ seen : List α, (dedupFirstAux seen l).Nodup := by
  induction l with
  | nil => intro seen; simp [dedupFirstAux]
  | cons a t ih =>
      intro seen
      by_cases ha : a ∈ seen
      · simpa [dedupFirstAux, if_pos ha] using ih seen
      · simp only [dedupFirstAux, if_neg ha]
        refine List.Nodup.cons ?_ (ih (a :: seen))
        intro hmem
        exact ((mem_dedupFirstAux t (a :: seen) a).mp hmem).2 (List.mem_cons_self a seen)

theorem dedupFirstAux_sublist {α : Type} [DecidableEq α] (l : List α) :
    ∀ seen : List α, (dedupFirstAux seen l).Sublist l := by
  induction l with
  | nil => intro seen; simp [dedupFirstAux]
  | cons a t ih =>
      intro seen
      by_cases ha : a ∈ seen
      · simpa [dedupFirstAux, if_pos ha] using (ih seen).cons a
      · simpa [dedupFirstAux, if_neg ha] using (ih (a :: seen)).cons₂ a

theorem mem_dedupFirst {α : Type} [DecidableEq α] (l : List α) (x : α) :
    x ∈ dedupFirst l ↔ x ∈ l := by
  simp [dedupFirst, mem_dedupFirstAux]

theorem nodup_dedupFirst {α : Type} [DecidableEq α] (l : List α) : (dedupFirst l).Nodup :=
  nodup_dedupFirstAux l []

theorem dedupFirst_sublist {α : Type} [DecidableEq α] (l : List α) :
    (dedupFirst l).Sublist l :=
  dedupFirstAux_sublist l []

theorem mem_side_effect_lookup (edges_df : List EdgeRecord) (d x : String) :
    x ∈ side_effect_lookup edges_df d ↔
      ∃ r ∈ edges_df, r.drug_name = d ∧ r.side_effect = x := by
  simp [side_effect_lookup, List.mem_map, List.mem_filter, and_assoc]

theorem mem_lookupDrugs (edges_df : List EdgeRecord) (d : String) :
    d ∈ lookupDrugs edges_df ↔ ∃ r ∈ edges_df, r.drug_name = d := by
  simp [lookupDrugs, mem_dedupFirst, List.mem_map]

theorem build_graph_concat (rs : List EdgeRecord) (r : EdgeRecord) :
    build_graph (rs ++ [r]) = addRecord (build_graph rs) r := by
  simp [build_graph, List.foldl_append]

theorem suggLE_iff (a b : Suggestion) :
    suggLE a b = true ↔
      (b.shared_effects < a.shared_effects ∨
        (a.shared_effects = b.shared_effects ∧ b.risk_reduction ≤ a.risk_reduction)) := by
  simp [suggLE]

theorem suggLE_trans (a b c : Suggestion) (hab : suggLE a b = true) (hbc : suggLE b c = true) :
    suggLE a c = true := by
  rw [suggLE_iff] at hab hbc ⊢
  rcases hab with h1 | ⟨h1, h1'⟩ <;> rcases hbc with h2 | ⟨h2, h2'⟩
  · exact Or.inl (h2.trans h1)
  · exact Or.inl (h2 ▸ h1)
  · exact Or.inl (h1 ▸ h2)
  · exact Or.inr ⟨h1.trans h2, h2'.trans h1'⟩

theorem suggLE_total (a b : Suggestion) : (suggLE a b || suggLE b a) = true := by
  rw [Bool.or_eq_true, suggLE_iff, suggLE_iff]
  rcases Nat.lt_trichotomy a.shared_effects b.shared_effects with h | h | h
  · exact Or.inr (Or.inl h)
  · rcases le_total a.risk_reduction b.risk_reduction with h' | h'
    · exact Or.inr (Or.inr ⟨h.symm, h'⟩)
    · exact Or.inl (Or.inr ⟨h, h'⟩)
  · exact Or.inl (Or.inl h)

theorem polyFold_fst (edges_df : List EdgeRecord) (rm : List (String × ℚ)) (sel : List String) :
    ∀ (ce : Finset String) (o : Option (Finset String)) (cs : ℚ),
      (sel.foldl (polyStep edges_df rm) (ce, o, cs)).1 =
        sel.foldl (fun acc d => acc ∪ seSet edges_df d) ce := by
  induction sel with
  | nil => intro ce o cs; rfl
  | cons d rest ih => intro ce o cs; simpa [polyStep] using ih _ _ _

theorem polyFold_trd (edges_df : List EdgeRecord) (rm : List (String × ℚ)) (sel : List String) :
    ∀ (ce : Finset String) (o : Option (Finset String)) (cs : ℚ),
      (sel.foldl (polyStep edges_df rm) (ce, o, cs)).2.2 =
        cs + (sel.map (riskW rm)).sum := by
  induction sel with
  | nil => intro ce o cs; simp
  | cons d rest ih =>
      intro ce o cs
      simp only [List.foldl_cons, List.map_cons, List.sum_cons, polyStep]
      rw [ih]
      ring

theorem polyFold_snd_some (edges_df : List EdgeRecord) (rm : List (String × ℚ))
    (sel : List String) :
    ∀ (ce : Finset String) (o : Finset String) (cs : ℚ),
      (sel.foldl (polyStep edges_df rm) (ce, some o, cs)).2.1 =
        some (sel.foldl (fun acc d => acc ∩ seSet edges_df d) o) := by
  induction sel with
  | nil => intro ce o cs; rfl
  | cons d rest ih => intro ce o cs; simpa [polyStep] using ih _ _ _

theorem mem_foldl_union (edges_df : List EdgeRecord) (sel : List String) :
    ∀ (ce : Finset String) (x : String),
      x ∈ sel.foldl (fun acc d => acc ∪ seSet edges_df d) ce ↔
        x ∈ ce ∨ ∃ d ∈ sel, x ∈ seSet edges_df d := by
  induction sel with
  | nil => intro ce x; simp
  | cons d rest ih =>
      intro ce x
      simp only [List.foldl_cons, ih, Finset.mem_union, List.mem_cons]
      constructor
      · rintro ((h | h) | ⟨d', hd', h⟩)
        · exact Or.inl h
        · exact Or.inr ⟨d, Or.inl rfl, h⟩
        · exact Or.inr ⟨d', Or.inr hd', h⟩
      · rintro (h | ⟨d', rfl | hd', h⟩)
        · exact Or.inl (Or.inl h)
        · exact Or.inl (Or.inr h)
        · exact Or.inr ⟨d', hd', h⟩

theorem mem_foldl_inter (edges_df : List EdgeRecord) (sel : List String) :
    ∀ (o : Finset String) (x : String),
      x ∈ sel.foldl (fun acc d => acc ∩ seSet edges_df d) o ↔
        x ∈ o ∧ ∀ d ∈ sel, x ∈ seSet edges_df d := by
  induction sel with
  | nil => intro o x; simp
  | cons d rest ih =>
      intro o x
      simp only [List.foldl_cons, ih, Finset.mem_inter, List.mem_cons, and_assoc]
      constructor
      · rintro ⟨ho, hd, hrest⟩
        exact ⟨ho, fun d' hd' => by rcases hd' with rfl | hd' <;> [exact hd; exact hrest d' hd']⟩
      · rintro ⟨ho, hall⟩
        exact ⟨ho, hall d (Or.inl rfl), fun d' hd' => hall d' (Or.inr hd')⟩

theorem listMax_mem : ∀ l : List ℚ, l ≠ [] → listMax l ∈ l := by
  intro l
  induction l with
  | nil => intro h; exact absurd rfl h
  | cons a t ih =>
      intro _
      cases t with
      | nil => simp [listMax]
      | cons b t' =>
          rcases max_choice a (listMax (b :: t')) with h | h
          · simp [listMax, h]
          · simp only [listMax, h, List.mem_cons]
            exact Or.inr (by simpa using ih (by simp))

theorem le_listMax : ∀ (l : List ℚ) (x : ℚ), x ∈ l → x ≤ listMax l := by
  intro l
  induction l with
  | nil => intro x hx; simp at hx
  | cons a t ih =>
      intro x hx
      cases t with
      | nil => simp at hx; simp [listMax, hx]
      | cons b t' =>
          rcases List.mem_cons.mp hx with rfl | hx'
          · exact le_max_left _ _
          · exact le_trans (ih x hx') (le_max_right _ _)

theorem polypharmacy_combined_effects (edges_df : List EdgeRecord) (rm : List (String × ℚ))
    (sel : List String) :
    (polypharmacy edges_df rm sel).combined_effects =
      sel.foldl (fun acc d => acc ∪ seSet edges_df d) ∅ := by
  simp [polypharmacy, polyFold_fst]

theorem polypharmacy_combined_score (edges_df : List EdgeRecord) (rm : List (String × ℚ))
    (sel : List String) :
    (polypharmacy edges_df rm sel).combined_score = (sel.map (riskW rm)).sum := by
  simp [polypharmacy, polyFold_trd]

theorem polypharmacy_overlap_effects (edges_df : List EdgeRecord) (rm : List (String × ℚ))
    (d0 : String) (rest : List String) :
    (polypharmacy edges_df rm (d0 :: rest)).overlap_effects =
      some (rest.foldl (fun acc d => acc ∩ seSet edges_df d) (seSet edges_df d0)) := by
  simp [polypharmacy, List.foldl_cons, polyStep, polyFold_snd_some]

theorem polypharmacy_avg_score (edges_df : List EdgeRecord) (rm : List (String × ℚ))
    (sel : List String) :
    (polypharmacy edges_df rm sel).avg_score =
      (polypharmacy edges_df rm sel).combined_score / (sel.length : ℚ) := rfl

theorem polypharmacy_max_score (edges_df : List EdgeRecord) (rm : List (String × ℚ))
    (sel : List String) :
    (polypharmacy edges_df rm sel).max_score = listMax (sel.map (riskW rm)) := rfl

theorem polypharmacy_risk_level (edges_df : List EdgeRecord) (rm : List (String × ℚ))
    (sel : List String) :
    (polypharmacy edges_df rm sel).risk_level =
      if (polypharmacy edges_df rm sel).avg_score > 7/10 then "High"
      else if (polypharmacy edges_df rm sel).avg_score > 2/5 then "Medium"
      else "Low" := rfl

/-- C3: when the same (drug, side_effect) pair occurs in multiple edge
records, the built graph's edge for that pair carries the parsed frequency of
the last occurrence in input order (dict overwrite, not accumulation); in
particular for input [(A,B,10), (A,B,20)] the edge A→B has frequency 20. -/
theorem C3_edge_frequency_overwrite (rs : List EdgeRecord) (d s : String) :
    aget? (d, s) (build_graph rs).edges = lastFreq? rs d s ∧
    aget? ("A", "B") (build_graph exEdges3).edges = some (Frequency.known 20) := by
  refine ⟨?_, by decide⟩
  induction rs using List.reverseRecOn with
  | nil => rfl
  | append_singleton rs r ih =>
      rw [build_graph_concat]
      have hrev : (rs ++ [r]).reverse = r :: rs.reverse := by simp
      by_cases hk : strip r.drug_name = d ∧ strip r.side_effect = s
      · have hkey : (strip r.drug_name, strip r.side_effect) = (d, s) := by rw [hk.1, hk.2]
        show aget? (d, s) (upsert (strip r.drug_name, strip r.side_effect)
          (tryFloat r.freq_pct) (build_graph rs).edges) = lastFreq? (rs ++ [r]) d s
        rw [hkey, aget?_upsert_self, lastFreq?, hrev,
          List.find?_cons_of_pos _ (by simpa using hk)]
        rfl
      · have hkey : (d, s) ≠ (strip r.drug_name, strip r.side_effect) := by
          intro he
          exact hk ⟨(congrArg Prod.fst he).symm, (congrArg Prod.snd he).symm⟩
        show aget? (d, s) (upsert (strip r.drug_name, strip r.side_effect)
          (tryFloat r.freq_pct) (build_graph rs).edges) = lastFreq? (rs ++ [r]) d s
        rw [aget?_upsert_ne _ _ hkey, ih, lastFreq?, lastFreq?, hrev,
          List.find?_cons_of_neg _ (by simpa using hk)]

/-- C4: an edge record whose `freq_pct` fails the numeric parse stores the
explicit unknown sentinel as the edge's frequency, and the sentinel is
distinguishable from every numeric frequency, in particular from 0.  The
embedding is a total function: the parse failure is recovered, not raised. -/
theorem C4_unknown_sentinel (G : Graph) (r : EdgeRecord)
    (hfail : parses? r.freq_pct = none) :
    aget? (strip r.drug_name, strip r.side_effect) (addRecord G r).edges = some Frequency.na ∧
    (∀ q : ℚ, Frequency.na ≠ Frequency.known q) := by
  constructor
  · have ht : tryFloat r.freq_pct = Frequency.na := by simp [tryFloat, hfail]
    show aget? (strip r.drug_name, strip r.side_effect)
      (upsert (strip r.drug_name, strip r.side_effect) (tryFloat r.freq_pct) G.edges) =
      some Frequency.na
    rw [ht, aget?_upsert_self]
  · intro q h
    exact Frequency.noConfusion h

theorem C4_unknown_sentinel_witness :
    parses? (RawFreq.text "abc") = none ∧
    aget? (strip "A", strip "B")
        (addRecord Graph.empty ⟨"A", "B", RawFreq.text "abc"⟩).edges = some Frequency.na :=
  ⟨by decide, (C4_unknown_sentinel Graph.empty ⟨"A", "B", RawFreq.text "abc"⟩ (by decide)).1⟩

/-- C5 counterexample: the claim says the sampled attempt uses
k = min(100, node_count), but the code computes k = min(100, max(1, node_count))
(dashboard.py line 75); on the empty graph (node_count 0, reachable via the
empty dataset) the code's k is 1 while min(100, 0) = 0. -/
theorem C5_centrality_k_counterexample :
    centralityK (build_graph ([] : List EdgeRecord)).nodes.length ≠
      min 100 (build_graph ([] : List EdgeRecord)).nodes.length := by
  decide

/-- C5 (amended): the centrality computation first attempts the sampled
betweenness approximation with k = min(100, max(1, node_count)) pivot sources;
if the sampled computation errors it falls back to the exact computation
instead of propagating the error; the result is a node-to-score mapping. -/
theorem C5_centrality_fallback (sampled : Graph → ℕ → Option (List (String × ℚ)))
    (exact : Graph → List (String × ℚ)) (G : Graph) :
    centralityK G.nodes.length = min 100 (max 1 G.nodes.length) ∧
    (∀ res, sampled G (centralityK G.nodes.length) = some res →
      compute_centrality sampled exact G = res) ∧
    (sampled G (centralityK G.nodes.length) = none →
      compute_centrality sampled exact G = exact G) := by
  refine ⟨rfl, ?_, ?_⟩
  · intro res hres
    simp [compute_centrality, hres]
  · intro hnone
    simp [compute_centrality, hnone]

theorem C5_centrality_fallback_witness :
    (fun (_ : Graph) (_ : ℕ) => (none : Option (List (String × ℚ)))) Graph.empty
        (centralityK Graph.empty.nodes.length) = none ∧
    compute_centrality (fun _ _ => none) (fun _ => []) Graph.empty =
      (fun (_ : Graph) => ([] : List (String × ℚ))) Graph.empty :=
  ⟨rfl, (C5_centrality_fallback (fun _ _ => none) (fun _ => []) Graph.empty).2.2 rfl⟩

/-- C6: with either source file absent the loader returns the two empty
tables (record types `EdgeRecord` and `RiskRecord` carry the schemas), and
every downstream construction and query on the empty dataset is total and
yields a not-found or empty result: empty graph, empty risk map, empty
side-effect index, not-found profile, empty alternatives, and zero/empty
polypharmacy aggregates. -/
theorem C6_graceful_missing_data (ef : List EdgeRecord) (rf : List RiskRecord)
    (d : String) (rq : ℚ) (sel : List String) :
    load_data false true ef rf = ([], []) ∧
    load_data true false ef rf = ([], []) ∧
    load_data false false ef rf = ([], []) ∧
    build_graph ([] : List EdgeRecord) = Graph.empty ∧
    dashboardGraph ([] : List EdgeRecord) = Graph.empty ∧
    risk_map ([] : List RiskRecord) = [] ∧
    side_effect_lookup ([] : List EdgeRecord) d = [] ∧
    lookupDrugs ([] : List EdgeRecord) = [] ∧
    drug_profile (risk_map []) ([] : List EdgeRecord) d = none ∧
    safer_alternatives ([] : List EdgeRecord) (risk_map []) d rq = [] ∧
    (polypharmacy ([] : List EdgeRecord) (risk_map []) sel).combined_effects = ∅ ∧
    (polypharmacy ([] : List EdgeRecord) (risk_map []) sel).combined_score = 0 ∧
    (polypharmacy ([] : List EdgeRecord) (risk_map []) sel).max_score = 0 := by
  refine ⟨rfl, rfl, rfl, rfl, rfl, rfl, rfl, rfl, rfl, ?_, ?_, ?_, ?_⟩
  · simp [safer_alternatives, lookupDrugs, dedupFirst, dedupFirstAux]
  · rw [polypharmacy_combined_effects]
    apply Finset.eq_empty_of_forall_not_mem
    intro x hx
    rw [mem_foldl_union] at hx
    rcases hx with hx | ⟨d', _, hx⟩ <;> simp [seSet, side_effect_lookup] at hx
  · rw [polypharmacy_combined_score]
    apply List.sum_eq_zero
    intro x hx
    rcases List.mem_map.mp hx with ⟨d', _, rfl⟩
    rfl
  · rw [polypharmacy_max_score]
    have hall : ∀ x ∈ sel.map (riskW (risk_map [])), x = 0 := by
      intro x hx
      rcases List.mem_map.mp hx with ⟨d', _, rfl⟩
      rfl
    cases hm : sel.map (riskW (risk_map [])) with
    | nil => rfl
    | cons q t =>
        have hmem := listMax_mem (q :: t) (by simp)
        exact hall _ (hm ▸ hmem)

/-- C9: the relationship graph is built from only the first 500 rows of the
edge table: records past the 500th row contribute nothing to the graph. -/
theorem C9_first_500_rows (edges_df rest : List EdgeRecord)
    (h : 500 ≤ edges_df.length) :
    dashboardGraph (edges_df ++ rest) = dashboardGraph edges_df ∧
    dashboardGraph edges_df = build_graph (edges_df.take 500) := by
  refine ⟨?_, rfl⟩
  unfold dashboardGraph
  rw [List.take_append_of_le_length h]

theorem C9_first_500_rows_witness :
    500 ≤ (List.replicate 500 (⟨"A", "B", RawFreq.num 1⟩ : EdgeRecord)).length ∧
    dashboardGraph (List.replicate 500 (⟨"A", "B", RawFreq.num 1⟩ : EdgeRecord) ++
        [⟨"C", "D", RawFreq.num 2⟩]) =
      dashboardGraph (List.replicate 500 (⟨"A", "B", RawFreq.num 1⟩ : EdgeRecord)) :=
  ⟨(List.length_replicate 500 _).ge,
    (C9_first_500_rows _ _ (List.length_replicate 500 _).ge).1⟩

/-- C10 counterexample: the claim says that when a trimmed name occurs both as
a drug and as a side effect, both node kinds coexist distinguishably under
that name; but the built graph keeps a single `type` attribute per node name,
overwritten by the last `add_node` call: in exEdges10 the name B occurs as a
side effect (record 1) and as a drug (record 2), yet its stored kind is
"drug", not "side_effect". -/
theorem C10_kind_collision_counterexample :
    (∃ r ∈ exEdges10, strip r.side_effect = "B") ∧
    (∃ r ∈ exEdges10, strip r.drug_name = "B") ∧
    nodeType? (build_graph exEdges10) "B" = some "drug" ∧
    nodeType? (build_graph exEdges10) "B" ≠ some "side_effect" := by
  refine ⟨by decide, by decide, by decide, by decide⟩

/-- C10 (amended): node identity is the trimmed string name, but each name
carries a single `type` attribute with last-write-wins semantics: the stored
kind equals the last write in the sequence of per-record writes (drug node
first, then side-effect node), so under a drug/side-effect name collision the
later role overwrites the earlier one rather than both kinds coexisting. -/
theorem C10_kind_last_write (rs : List EdgeRecord) (n : String) :
    nodeType? (build_graph rs) n = lastWrite? (kindWrites rs) n := by
  induction rs using List.reverseRecOn with
  | nil => rfl
  | append_singleton rs r ih =>
      rw [build_graph_concat]
      have hw : kindWrites (rs ++ [r]) = kindWrites rs ++
          [(strip r.drug_name, "drug"), (strip r.side_effect, "side_effect")] := by
        simp [kindWrites]
      rw [hw]
      unfold lastWrite?
      have hrev : (kindWrites rs ++
          [(strip r.drug_name, "drug"), (strip r.side_effect, "side_effect")]).reverse =
          (strip r.side_effect, "side_effect") :: (strip r.drug_name, "drug") ::
            (kindWrites rs).reverse := by
        simp
      rw [hrev]
      by_cases h2 : strip r.side_effect = n
      · subst h2
        simp only [nodeType?, addRecord]
        rw [aget?_upsert_self, aget?_cons]
        simp [seAttrs]
      · by_cases h1 : strip r.drug_name = n
        · subst h1
          simp only [nodeType?, addRecord]
          rw [aget?_upsert_ne _ _ (Ne.symm h2), aget?_upsert_self, aget?_cons, aget?_cons]
          simp [drugAttrs, h2]
        · simp only [nodeType?, addRecord]
          rw [aget?_upsert_ne _ _ (Ne.symm h2), aget?_upsert_ne _ _ (Ne.symm h1),
            aget?_cons, aget?_cons, if_neg h2, if_neg h1]
          simpa [nodeType?, lastWrite?] using ih

/-- C7: the risk range filter keeps exactly the rows with
min ≤ risk_score ≤ max (both bounds inclusive); the derived aggregates are the
count of matching rows, their mean (an explicit undefined state when the
subset is empty — the embedding is total, nothing is raised), and the top 5
rows by descending risk score. -/
theorem C7_risk_range_filter (risk_df : List RiskRecord) (lo hi : ℚ) :
    (∀ r : RiskRecord, r ∈ filteredRows risk_df lo hi ↔
      r ∈ risk_df ∧ lo ≤ r.risk_score ∧ r.risk_score ≤ hi) ∧
    (filteredRows risk_df lo hi).length =
      risk_df.countP (fun r => decide (lo ≤ r.risk_score) && decide (r.risk_score ≤ hi)) ∧
    (filteredRows risk_df lo hi = [] → meanRisk? (filteredRows risk_df lo hi) = none) ∧
    (filteredRows risk_df lo hi ≠ [] → meanRisk? (filteredRows risk_df lo hi) =
      some (((filteredRows risk_df lo hi).map (fun r => r.risk_score)).sum /
        (((filteredRows risk_df lo hi).length : ℕ) : ℚ))) ∧
    (top5 (filteredRows risk_df lo hi)).length = min 5 (filteredRows risk_df lo hi).length ∧
    (∀ r ∈ top5 (filteredRows risk_df lo hi), r ∈ filteredRows risk_df lo hi) ∧
    (top5 (filteredRows risk_df lo hi)).Pairwise
      (fun a b => b.risk_score ≤ a.risk_score) := by
  have htrans : ∀ a b c : RiskRecord, decide (b.risk_score ≤ a.risk_score) = true →
      decide (c.risk_score ≤ b.risk_score) = true →
      decide (c.risk_score ≤ a.risk_score) = true := by
    intro a b c hab hbc
    simp only [decide_eq_true_eq] at hab hbc ⊢
    exact le_trans hbc hab
  have htotal : ∀ a b : RiskRecord, (decide (b.risk_score ≤ a.risk_score) ||
      decide (a.risk_score ≤ b.risk_score)) = true := by
    intro a b
    simp only [Bool.or_eq_true, decide_eq_true_eq]
    exact le_total _ _
  have hsorted := @List.sorted_mergeSort RiskRecord
    (fun a b => decide (b.risk_score ≤ a.risk_score)) htrans htotal
    (filteredRows risk_df lo hi)
  refine ⟨?_, ?_, ?_, ?_, ?_, ?_, ?_⟩
  · intro r
    simp [filteredRows, List.mem_filter, and_assoc]
  · simp [filteredRows, List.countP_eq_length_filter]
  · intro h
    simp [meanRisk?, h]
  · intro h
    simp [meanRisk?, List.isEmpty_iff, h]
  · simp [top5, List.length_take, List.length_mergeSort]
  · intro r hr
    exact List.mem_mergeSort.mp ((List.take_sublist _ _).mem hr)
  · exact ((hsorted.sublist (List.take_sublist _ _)).imp (by
      intro a b hab
      simpa using hab))

theorem C7_risk_range_filter_witness :
    filteredRows exRisk7 2 3 = [] ∧ meanRisk? (filteredRows exRisk7 2 3) = none := by
  have h : filteredRows exRisk7 2 3 = [] := by decide
  exact ⟨h, (C7_risk_range_filter exRisk7 2 3).2.2.1 h⟩

/-- C8: the drug profile is a not-found signal exactly when the drug is absent
from the risk map; otherwise it is the risk score together with the drug's
side-effect list de-duplicated preserving first-seen order; a drug in the risk
map but absent from the side-effect index gets the empty list, not an error. -/
theorem C8_drug_profile (rm : List (String × ℚ)) (edges_df : List EdgeRecord)
    (drug : String) :
    (drug_profile rm edges_df drug = none ↔ aget? drug rm = none) ∧
    (∀ score l, drug_profile rm edges_df drug = some (score, l) →
      aget? drug rm = some score ∧
      l = dedupFirst (side_effect_lookup edges_df drug) ∧
      l.Nodup ∧
      l.Sublist (side_effect_lookup edges_df drug) ∧
      (∀ x, x ∈ l ↔ x ∈ side_effect_lookup edges_df drug) ∧
      (drug ∉ lookupDrugs edges_df → l = [])) := by
  constructor
  · cases h : aget? drug rm <;> simp [drug_profile, h]
  · intro score l hl
    cases h : aget? drug rm with
    | none =>
        rw [drug_profile, h] at hl
        exact absurd hl (by simp)
    | some s0 =>
        rw [drug_profile, h] at hl
        have hs : s0 = score ∧ dedupFirst (side_effect_lookup edges_df drug) = l := by
          simpa using hl
        refine ⟨by rw [hs.1], hs.2.symm, ?_, ?_, ?_, ?_⟩
        · rw [← hs.2]
          exact nodup_dedupFirst _
        · rw [← hs.2]
          exact dedupFirst_sublist _
        · intro x
          rw [← hs.2]
          exact mem_dedupFirst _ _
        · intro habs
          have hempty : side_effect_lookup edges_df drug = [] := by
            rw [List.eq_nil_iff_forall_not_mem]
            intro x hx
            rcases (mem_side_effect_lookup edges_df drug x).mp hx with ⟨r, hr, hdn, -⟩
            exact habs ((mem_lookupDrugs edges_df drug).mpr ⟨r, hr, hdn⟩)
          rw [← hs.2, hempty]
          rfl

theorem C8_drug_profile_witness :
    drug_profile (risk_map exRisk) exEdges "A" = some (4/5, ["x", "y"]) ∧
    (["x", "y"] : List String).Nodup :=
  ⟨rfl, ((C8_drug_profile (risk_map exRisk) exEdges "A").2 (4/5) ["x", "y"] rfl).2.2.1⟩

/-- C1: for a query drug present in both the risk map and the side-effect
index, the safer-alternatives result contains exactly the suggestions for the
other drugs of the index that share at least one side effect with the query
drug and have a strictly lower risk score; each suggestion carries the overlap
count, the other drug's risk score and risk_reduction = query risk minus other
risk; a drug with no risk-map entry is never returned; the list is ordered
descending by overlap count, ties broken by descending risk reduction; the
empty list is a possible value, not an error. -/
theorem C1_safer_alternatives (edges_df : List EdgeRecord) (rm : List (String × ℚ))
    (drug : String) (rq : ℚ) (hrm : aget? drug rm = some rq)
    (hidx : drug ∈ lookupDrugs edges_df) :
    (∀ s : Suggestion, s ∈ safer_alternatives edges_df rm drug rq ↔
      (s.drug ∈ lookupDrugs edges_df ∧ s.drug ≠ drug ∧
        s.shared_effects = overlapCount edges_df drug s.drug ∧
        0 < s.shared_effects ∧
        aget? s.drug rm = some s.risk_score ∧
        s.risk_score < rq ∧
        s.risk_reduction = rq - s.risk_score)) ∧
    (∀ s ∈ safer_alternatives edges_df rm drug rq,
      ∃ x, x ∈ side_effect_lookup edges_df drug ∧ x ∈ side_effect_lookup edges_df s.drug) ∧
    (safer_alternatives edges_df rm drug rq).Pairwise (fun a b => suggLE a b = true) := by
  have hmem : ∀ s : Suggestion, s ∈ safer_alternatives edges_df rm drug rq ↔
      (s.drug ∈ lookupDrugs edges_df ∧ s.drug ≠ drug ∧
        s.shared_effects = overlapCount edges_df drug s.drug ∧
        0 < s.shared_effects ∧
        aget? s.drug rm = some s.risk_score ∧
        s.risk_score < rq ∧
        s.risk_reduction = rq - s.risk_score) := by
    intro s
    rw [safer_alternatives, List.mem_mergeSort, List.mem_filterMap]
    constructor
    · rintro ⟨other, ho, hf⟩
      by_cases h1 : other = drug
      · simp [h1] at hf
      · rw [if_neg h1] at hf
        by_cases h2 : overlapCount edges_df drug other = 0
        · rw [if_pos h2] at hf
          cases hf
        · rw [if_neg h2] at hf
          cases hro : aget? other rm with
          | none =>
              rw [hro] at hf
              cases hf
          | some ro =>
              rw [hro] at hf
              dsimp only at hf
              by_cases h3 : ro < rq
              · rw [if_pos h3] at hf
                have hs := Option.some.inj hf
                subst hs
                exact ⟨ho, h1, rfl, Nat.pos_of_ne_zero h2, hro, h3, rfl⟩
              · rw [if_neg h3] at hf
                cases hf
    · rintro ⟨ho, h1, hsh, hpos, hro, hlt, hrr⟩
      refine ⟨s.drug, ho, ?_⟩
      rw [if_neg h1, if_neg (by omega : ¬ overlapCount edges_df drug s.drug = 0), hro]
      dsimp only
      rw [if_pos hlt]
      cases s with
      | mk s1 s2 s3 s4 =>
          simp only at hsh hrr ⊢
          rw [← hsh, ← hrr]
  refine ⟨hmem, ?_, ?_⟩
  · intro s hs
    obtain ⟨-, -, hsh, hpos, -, -, -⟩ := (hmem s).mp hs
    rw [hsh] at hpos
    rcases Finset.card_pos.mp hpos with ⟨x, hx⟩
    rcases Finset.mem_inter.mp hx with ⟨hx1, hx2⟩
    exact ⟨x, List.mem_toFinset.mp hx1, List.mem_toFinset.mp hx2⟩
  · exact @List.sorted_mergeSort Suggestion suggLE suggLE_trans suggLE_total _

theorem C1_safer_alternatives_witness :
    Suggestion.mk "B" 1 (1/2) (4/5 - 1/2) ∈
      safer_alternatives exEdges (risk_map exRisk) "A" (4/5) := by
  have h := C1_safer_alternatives exEdges (risk_map exRisk) "A" (4/5) rfl (by decide)
  exact (h.1 (Suggestion.mk "B" 1 (1/2) (4/5 - 1/2))).mpr
    ⟨by decide, by decide, by decide, by decide, rfl, by norm_num, rfl⟩

/-- C2: polypharmacy analysis over at least two selected drugs computes the
union of the side-effect sets, the intersection of all of them, the sum of
the risk scores (an absent drug contributing 0, not raising), the average
(sum / number of drugs), and the maximum individual score; the combined risk
level is "High" iff avg > 0.7, "Medium" iff 0.4 < avg ≤ 0.7, and "Low" iff
avg ≤ 0.4, so an average of exactly 0.7 is "Medium". -/
theorem C2_polypharmacy (edges_df : List EdgeRecord) (rm : List (String × ℚ))
    (selected : List String) (hsel : 2 ≤ selected.length) :
    (∀ x, x ∈ (polypharmacy edges_df rm selected).combined_effects ↔
      ∃ d ∈ selected, x ∈ side_effect_lookup edges_df d) ∧
    (∃ I, (polypharmacy edges_df rm selected).overlap_effects = some I ∧
      ∀ x, (x ∈ I ↔ ∀ d ∈ selected, x ∈ side_effect_lookup edges_df d)) ∧
    (polypharmacy edges_df rm selected).combined_score =
      (selected.map (riskW rm)).sum ∧
    (∀ d, aget? d rm = none → riskW rm d = 0) ∧
    (polypharmacy edges_df rm selected).avg_score =
      (polypharmacy edges_df rm selected).combined_score / (selected.length : ℚ) ∧
    (polypharmacy edges_df rm selected).max_score ∈ selected.map (riskW rm) ∧
    (∀ x ∈ selected.map (riskW rm), x ≤ (polypharmacy edges_df rm selected).max_score) ∧
    ((polypharmacy edges_df rm selected).risk_level = "High" ↔
      7/10 < (polypharmacy edges_df rm selected).avg_score) ∧
    ((polypharmacy edges_df rm selected).risk_level = "Medium" ↔
      (2/5 < (polypharmacy edges_df rm selected).avg_score ∧
        (polypharmacy edges_df rm selected).avg_score ≤ 7/10)) ∧
    ((polypharmacy edges_df rm selected).risk_level = "Low" ↔
      (polypharmacy edges_df rm selected).avg_score ≤ 2/5) := by
  obtain ⟨d0, rest, rfl⟩ : ∃ d0 rest, selected = d0 :: rest := by
    cases selected with
    | nil => simp at hsel
    | cons a t => exact ⟨a, t, rfl⟩
  refine ⟨?_, ?_, polypharmacy_combined_score _ _ _, ?_, polypharmacy_avg_score _ _ _,
    ?_, ?_, ?_, ?_, ?_⟩
  · intro x
    rw [polypharmacy_combined_effects, mem_foldl_union]
    simp [seSet, List.mem_toFinset]
  · refine ⟨rest.foldl (fun acc d => acc ∩ seSet edges_df d) (seSet edges_df d0),
      polypharmacy_overlap_effects _ _ _ _, ?_⟩
    intro x
    rw [mem_foldl_inter]
    simp [seSet, List.mem_toFinset, List.forall_mem_cons]
  · intro d h
    simp [riskW, h]
  · rw [polypharmacy_max_score]
    exact listMax_mem _ (by simp)
  · intro x hx
    rw [polypharmacy_max_score]
    exact le_listMax _ x hx
  · rw [polypharmacy_risk_level]
    by_cases h1 : (polypharmacy edges_df rm (d0 :: rest)).avg_score > 7/10
    · rw [if_pos h1]
      exact ⟨fun _ => h1, fun _ => rfl⟩
    · by_cases h2 : (polypharmacy edges_df rm (d0 :: rest)).avg_score > 2/5
      · rw [if_neg h1, if_pos h2]
        exact ⟨fun h => absurd h (by decide), fun h => absurd h h1⟩
      · rw [if_neg h1, if_neg h2]
        exact ⟨fun h => absurd h (by decide), fun h => absurd h h1⟩
  · rw [polypharmacy_risk_level]
    by_cases h1 : (polypharmacy edges_df rm (d0 :: rest)).avg_score > 7/10
    · rw [if_pos h1]
      exact ⟨fun h => absurd h (by decide), fun hc => absurd h1 (not_lt.mpr hc.2)⟩
    · by_cases h2 : (polypharmacy edges_df rm (d0 :: rest)).avg_score > 2/5
      · rw [if_neg h1, if_pos h2]
        exact ⟨fun _ => ⟨h2, not_lt.mp h1⟩, fun _ => rfl⟩
      · rw [if_neg h1, if_neg h2]
        exact ⟨fun h => absurd h (by decide), fun hc => absurd hc.1 h2⟩
  · rw [polypharmacy_risk_level]
    by_cases h1 : (polypharmacy edges_df rm (d0 :: rest)).avg_score > 7/10
    · rw [if_pos h1]
      refine ⟨fun h => absurd h (by decide), fun hle => ?_⟩
      exact absurd (lt_of_lt_of_le h1 hle) (by norm_num)
    · by_cases h2 : (polypharmacy edges_df rm (d0 :: rest)).avg_score > 2/5
      · rw [if_neg h1, if_pos h2]
        exact ⟨fun h => absurd h (by decide), fun hle => absurd h2 (not_lt.mpr hle)⟩
      · rw [if_neg h1, if_neg h2]
        exact ⟨fun _ => not_lt.mp h2, fun _ => rfl⟩

theorem C2_polypharmacy_witness :
    2 ≤ (["A", "B"] : List String).length ∧
    (polypharmacy exEdges2 (risk_map exRisk2) ["A", "B"]).risk_level = "Medium" := by
  have hC := C2_polypharmacy exEdges2 (risk_map exRisk2) ["A", "B"] (by decide)
  refine ⟨by decide, hC.2.2.2.2.2.2.2.2.1.mpr ?_⟩
  have havg : (polypharmacy exEdges2 (risk_map exRisk2) ["A", "B"]).avg_score = 7/10 := by
    rw [hC.2.2.2.2.1, hC.2.2.1]
    have e1 : riskW (risk_map exRisk2) "A" = 3/5 := rfl
    have e2 : riskW (risk_map exRisk2) "B" = 4/5 := rfl
    simp [e1, e2]
    norm_num
  rw [havg]
  constructor <;> norm_num

end SideEffectNet
